import Mathlib

/-
Verification development for the hypertable plan-expansion core
(src/plan_expand_hypertable.c): a shallow embedding of the expression
classifier, the time_bucket predicate rewriter, the qualifier collector,
the explicit chunk selector and the chunk resolver, together with proofs
of the specified properties.

External collaborators (PostgreSQL catalog lookups, the range-exclusion
capability, GUC flags, chunk metadata lookup) are modelled as an abstract
environment record, as the specification treats them as consumed
capabilities.  Assert() is modelled as a no-op, matching release builds.
-/

namespace TSDB

/-- Object identifiers; InvalidOid is 0 as in PostgreSQL. -/
abbrev Oid := Nat

def InvalidOid : Oid := 0

/-- Relevant PostgreSQL type oids. -/
def TIMESTAMPTZOID : Oid := 1184

def INTERVALOID : Oid := 1186

def RECORDOID : Oid := 2249

def INT4ARRAYOID : Oid := 1007

/-- Btree operator family strategy numbers. -/
def BTLessStrategyNumber : Nat := 1

def BTLessEqualStrategyNumber : Nat := 2

def BTEqualStrategyNumber : Nat := 3

def BTGreaterEqualStrategyNumber : Nat := 4

def BTGreaterStrategyNumber : Nat := 5

def USECS_PER_DAY : Int := 86400000000

/-- PostgreSQL Interval datum: months, days and microseconds components. -/
structure Interval where
  month : Int
  day : Int
  time : Int
deriving Repr, DecidableEq

/-- Constant values appearing in plan expressions: integers, intervals and
integer arrays (array elements can be NULL). -/
inductive Datum where
  | intVal (v : Int)
  | intervalVal (iv : Interval)
  | arrayVal (elems : List (Option Int))
deriving Repr, DecidableEq

/-- Shallow embedding of the plan expression nodes the core inspects:
Const, Var, FuncExpr and OpExpr. -/
inductive PExpr where
  | constE (consttype : Oid) (constisnull : Bool) (constvalue : Datum)
  | varE (varno : Nat) (varattno : Nat) (vartype : Oid)
  | funcE (funcid : Oid) (funcresulttype : Oid) (args : List PExpr)
  | opE (opno : Oid) (opfuncid : Oid) (opresulttype : Oid) (args : List PExpr)
deriving Repr

/-- IsA(node, FuncExpr). -/
def PExpr.isFunc : PExpr → Bool
  | .funcE _ _ _ => true
  | _ => false

/-- IsA(node, Const). -/
def PExpr.isConst : PExpr → Bool
  | .constE _ _ _ => true
  | _ => false

/-- IsA(node, Var). -/
def PExpr.isVar : PExpr → Bool
  | .varE _ _ _ => true
  | _ => false

/-- exprType: the declared result type of an expression node. -/
def exprType : PExpr → Oid
  | .constE t _ _ => t
  | .varE _ _ t => t
  | .funcE _ t _ => t
  | .opE _ _ t _ => t

/-- Number of arguments of a FuncExpr (0 for other nodes). -/
def funcArgsLen : PExpr → Nat
  | .funcE _ _ args => args.length
  | _ => 0

/-- Per-planning metadata of one chunk as read back from the catalog:
the owning hypertable id (chunk->fd.hypertable_id) and the physical
relation oid (chunk->table_id). -/
structure ChunkT where
  hypertable_id : Int
  table_id : Oid
deriving Repr, DecidableEq

/-- Hypertable handle: catalog id, name, root relation oid and the
dimension count of its hyperspace. -/
structure Hypertable where
  id : Int
  table_name : String
  main_table_relid : Oid
  num_dimensions : Nat
deriving Repr, DecidableEq

/-- Per-relation private planning state (TimescaleDBPrivate). -/
structure TimescaleDBPrivate where
  appends_ordered : Bool
deriving Repr, DecidableEq

/-- RelOptInfo fields the core reads: the relation index and the private
planning state (fdw_private, possibly absent). -/
structure RelOptInfoM where
  relid : Nat
  fdw_private : Option TimescaleDBPrivate
deriving Repr, DecidableEq

/-- One RestrictInfo produced by make_restrictinfo: the (possibly
rewritten) clause, the is_pushed_down flag (always true here), the
security level and the referenced relation ids. -/
structure RestrictInfo where
  clause : PExpr
  is_pushed_down : Bool
  security_level : Nat
  relids : List Nat
deriving Repr

/-- Abstract environment of consumed capabilities.  PostgreSQL catalog
lookups (get_commutator, lookup_type_cache, get_op_opfamily_strategy,
get_op_rettype, get_func_name, find_inheritance_children,
estimate_expression_value) and the configuration flags are external
collaborators.  Modelled from the spec: the following capabilities are
repository code that is not part of the analysed source file and are
specified only through their interfaces — get_function_oid (catalog
function-oid lookup, InvalidOid on failure), get_operator (the native
pg_catalog "+" operator by operand types), get_cast_func (cast function
by type pair), ts_chunk_get_by_id (chunk metadata by chunk id), the
range-exclusion capability (chunk oids from a restriction list, plain or
pre-ordered), and ts_ordered_append_should_optimize (the downstream
ordered-append compatibility check, returning the requested direction
when it accepts). -/
structure PlannerEnv where
  get_commutator : Oid → Oid
  btree_opf_of_type : Oid → Oid
  get_op_opfamily_strategy : Oid → Oid → Nat
  get_operator_plus : Oid → Oid → Oid
  get_op_rettype : Oid → Oid
  get_cast_func : Oid → Oid → Oid
  func_name : Oid → String
  estimate_expression_value : PExpr → PExpr
  get_function_oid_chunks_in : Oid
  ts_chunk_get_by_id : Int → Option ChunkT
  find_inheritance_children : Oid → List Oid
  restriction_usable : RestrictInfo → Bool
  restrict_info_chunk_oids : List RestrictInfo → Oid → List Oid
  restrict_info_chunk_oids_ordered : List RestrictInfo → Oid → Bool → List Oid
  ordered_append_should_optimize : Int → List Nat → RelOptInfoM → Hypertable → Option Bool
  ts_guc_disable_optimizations : Bool
  ts_guc_enable_ordered_append : Bool

/-- Helper for the day-merge branch: the Interval payload of a Const of
type INTERVALOID, if the node has that shape. -/
def intervalConstOf : PExpr → Option Interval
  | .constE t _ (.intervalVal iv) => if t = INTERVALOID then some iv else none
  | _ => none

/-- Condition of the day-merge branch of transform_time_bucket_comparison:
width is an interval constant with zero month and nonzero day component. -/
def widthNeedsDayMerge (width : PExpr) : Bool :=
  match intervalConstOf width with
  | some iv => decide (iv.month = 0) && decide (iv.day ≠ 0)
  | none => false

/-- Day-merge on a copy of the width constant: fold the day component
into the time component at USECS_PER_DAY microseconds per day. -/
def mergeDayIntoTime (width : PExpr) : PExpr :=
  match width with
  | .constE t isnull (.intervalVal iv) =>
      .constE t isnull (.intervalVal ⟨iv.month, 0, iv.time + iv.day * USECS_PER_DAY⟩)
  | e => e

/-- Condition of the constant-folding branch: width (after a possible
day-merge) is an interval constant with zero day and zero month. -/
def widthFoldable (width : PExpr) : Bool :=
  match intervalConstOf width with
  | some iv => decide (iv.day = 0) && decide (iv.month = 0)
  | none => false

/-- transform_time_bucket_comparison: rewrite
time_bucket(width, column) OP value into a comparison directly on the
column.  The caller (process_quals) ensures the operand shape: one side
a 2-argument time_bucket FuncExpr, the other side a Const; on any
resolution failure the original OpExpr is returned unchanged.  The
function is total and never reports an error. -/
def transform_time_bucket_comparison (env : PlannerEnv) (op : PExpr) : PExpr :=
  match op with
  | .opE op_opno op_opfuncid op_rt [left, right] =>
    let time_bucket := if left.isFunc then left else right
    let value := if right.isConst then right else left
    match time_bucket with
    | .funcE _ tb_rt [width0, column] =>
      -- if time_bucket call is on wrong side we switch operator
      let commuted := right.isFunc
      let opno := if commuted then env.get_commutator op_opno else op_opno
      if commuted ∧ opno = InvalidOid then op
      else
        let btree_opf := env.btree_opf_of_type tb_rt
        let strategy := env.get_op_opfamily_strategy opno btree_opf
        if strategy = BTGreaterStrategyNumber ∨ strategy = BTGreaterEqualStrategyNumber then
          -- column > value
          .opE (if commuted then opno else op_opno)
               (if commuted then InvalidOid else op_opfuncid)
               op_rt [column, value]
        else if strategy = BTLessStrategyNumber ∨ strategy = BTLessEqualStrategyNumber then
          -- column < value + width
          let subst_opno := env.get_operator_plus (exprType value) (exprType width0)
          if subst_opno = InvalidOid then op
          else
            let width :=
              if tb_rt = TIMESTAMPTZOID ∧ widthNeedsDayMerge width0 then
                mergeDayIntoTime width0
              else width0
            let resulttype := env.get_op_rettype subst_opno
            let subst : PExpr := .opE subst_opno InvalidOid tb_rt [value, width]
            -- date OP interval returns timestamp so we need to insert a cast
            -- to keep the toplevel expression intact when datatypes differ
            let substc : Option PExpr :=
              if tb_rt ≠ resulttype then
                let cast_func := env.get_cast_func resulttype tb_rt
                if cast_func = InvalidOid then none
                else some (.funcE cast_func tb_rt [subst])
              else some subst
            match substc with
            | none => op
            | some subst1 =>
              -- TIMESTAMPTZ OP INTERVAL is stable; only pre-evaluate when the
              -- width has only a time component
              let subst2 :=
                if tb_rt = TIMESTAMPTZOID ∧ widthFoldable width then
                  env.estimate_expression_value subst1
                else subst1
              .opE (if commuted then opno else op_opno)
                   (if commuted then InvalidOid else op_opfuncid)
                   op_rt [column, subst2]
        else op
    | _ => op
  | _ => op

mutual

/-- pull_varnos: the relation indexes referenced by an expression
(as a list with possible repeats; callers deduplicate, mirroring the
bitmap set semantics). -/
def pull_varnos : PExpr → List Nat
  | .constE _ _ _ => []
  | .varE vno _ _ => [vno]
  | .funcE _ _ args => pull_varnos_list args
  | .opE _ _ _ args => pull_varnos_list args

/-- pull_varnos over an argument list. -/
def pull_varnos_list : List PExpr → List Nat
  | [] => []
  | e :: es => pull_varnos e ++ pull_varnos_list es

end

/-- Relids of a qual as a deduplicated list: bms_num_members is its
length and bms_is_member is list membership. -/
def qualRelids (q : PExpr) : List Nat :=
  (pull_varnos q).dedup

/-- is_chunk_exclusion_func: node is a FuncExpr whose funcid equals the
cached chunks_in oid. -/
def is_chunk_exclusion_func (excl : Oid) : PExpr → Bool
  | .funcE fid _ _ => decide (fid = excl)
  | _ => false

/-- is_time_bucket_function: node is a FuncExpr whose catalog name is
time_bucket (strncmp over the full name). -/
def is_time_bucket_function (env : PlannerEnv) : PExpr → Bool
  | .funcE fid _ _ => decide (env.func_name fid = "time_bucket")
  | _ => false

/-- Shape guard of process_quals before invoking the rewriter: a
2-argument OpExpr with a 2-argument time_bucket call on one side and a
Const on the other. -/
def is_time_bucket_comparison (env : PlannerEnv) : PExpr → Bool
  | .opE _ _ _ [l, r] =>
      (l.isFunc && r.isConst && decide (funcArgsLen l = 2) && is_time_bucket_function env l) ||
      (l.isConst && r.isFunc && decide (funcArgsLen r = 2) && is_time_bucket_function env r)
  | _ => false

/-- Fatal planner errors raised by the expansion core (ereport and elog
calls); each constructor records the data printed in the message. -/
inductive PlanError where
  | firstArgNotRecord
  | secondArgNotConstArray
  | nullChunkId
  | chunkNotFound (chunk_id : Int)
  | foreignChunk (chunk_id : Int)
  | unexpectedPermissions
deriving Repr, DecidableEq

/-- CollectQualCtx: transient state of the qualifier walk (root and rel
are passed separately as the relid and security level). -/
structure CollectQualCtx where
  restrictions : List RestrictInfo
  chunk_exclusion_func : Option PExpr
deriving Repr

/-- make_restrictinfo as used by process_quals: pushed down, not
outerjoin-delayed, with the query's current security level. -/
def make_restrictinfo (qual : PExpr) (security_level : Nat) (relids : List Nat) :
    RestrictInfo :=
  ⟨qual, true, security_level, relids⟩

/-- process_quals: classify each top-level conjunct of one qual list.
Conjuncts not referencing exactly the target relation are skipped; a
chunks_in call is validated, recorded, removed from the list and stops
the scan after discarding accumulated restrictions; a time_bucket
comparison is rewritten before being wrapped into a RestrictInfo (the
qual list keeps the original node); everything else becomes a
RestrictInfo as is. -/
def process_quals (env : PlannerEnv) (excl : Oid) (relid : Nat)
    (security_level : Nat) :
    List PExpr → CollectQualCtx → Except PlanError (List PExpr × CollectQualCtx)
  | [], ctx => .ok ([], ctx)
  | qual :: rest, ctx =>
    let relids := qualRelids qual
    if ¬ (relids.length = 1 ∧ relid ∈ relids) then
      -- skip expressions not for current rel
      match process_quals env excl relid security_level rest ctx with
      | .ok (rest', ctx') => .ok (qual :: rest', ctx')
      | .error e => .error e
    else if is_chunk_exclusion_func excl qual then
      match qual with
      | .funcE _ _ (arg1 :: _) =>
        if ¬ arg1.isVar then .error .firstArgNotRecord
        else
          .ok (rest, { restrictions := [], chunk_exclusion_func := some qual })
      | _ => .error .firstArgNotRecord
    else
      let qual' :=
        if is_time_bucket_comparison env qual then
          transform_time_bucket_comparison env qual
        else qual
      let ri := make_restrictinfo qual' security_level relids
      match process_quals env excl relid security_level rest
              { ctx with restrictions := ctx.restrictions ++ [ri] } with
      | .ok (rest', ctx') => .ok (qual :: rest', ctx')
      | .error e => .error e

/-- Join/filter tree of the query (FromExpr and JoinExpr nodes carry the
qual lists the walker processes; RangeTblRef leaves carry none). -/
inductive JoinTreeNode where
  | rangeTblRef (rti : Nat)
  | fromExpr (fromlist : List JoinTreeNode) (quals : List PExpr)
  | joinExpr (larg rarg : JoinTreeNode) (quals : List PExpr)
deriving Repr

mutual

/-- collect_quals_walker: process the quals of FromExpr and JoinExpr
nodes, then recurse into children; once a chunks_in call has been found
the walk stops early (expression_tree_walker aborts on a true return). -/
def collect_quals_walker (env : PlannerEnv) (excl : Oid) (relid : Nat)
    (security_level : Nat) :
    JoinTreeNode → CollectQualCtx → Except PlanError (JoinTreeNode × CollectQualCtx)
  | .rangeTblRef rti, ctx => .ok (.rangeTblRef rti, ctx)
  | .fromExpr fromlist quals, ctx =>
    match process_quals env excl relid security_level quals ctx with
    | .error e => .error e
    | .ok (quals', ctx') =>
      if ctx'.chunk_exclusion_func.isSome then .ok (.fromExpr fromlist quals', ctx')
      else
        match collect_quals_walker_list env excl relid security_level fromlist ctx' with
        | .error e => .error e
        | .ok (fromlist', ctx'') => .ok (.fromExpr fromlist' quals', ctx'')
  | .joinExpr larg rarg quals, ctx =>
    match process_quals env excl relid security_level quals ctx with
    | .error e => .error e
    | .ok (quals', ctx') =>
      if ctx'.chunk_exclusion_func.isSome then .ok (.joinExpr larg rarg quals', ctx')
      else
        match collect_quals_walker env excl relid security_level larg ctx' with
        | .error e => .error e
        | .ok (larg', ctx'') =>
          if ctx''.chunk_exclusion_func.isSome then .ok (.joinExpr larg' rarg quals', ctx'')
          else
            match collect_quals_walker env excl relid security_level rarg ctx'' with
            | .error e => .error e
            | .ok (rarg', ctx3) => .ok (.joinExpr larg' rarg' quals', ctx3)

/-- Walk of a FromExpr fromlist, aborting once a chunks_in call is found. -/
def collect_quals_walker_list (env : PlannerEnv) (excl : Oid) (relid : Nat)
    (security_level : Nat) :
    List JoinTreeNode → CollectQualCtx →
    Except PlanError (List JoinTreeNode × CollectQualCtx)
  | [], ctx => .ok ([], ctx)
  | n :: ns, ctx =>
    match collect_quals_walker env excl relid security_level n ctx with
    | .error e => .error e
    | .ok (n', ctx') =>
      if ctx'.chunk_exclusion_func.isSome then .ok (n' :: ns, ctx')
      else
        match collect_quals_walker_list env excl relid security_level ns ctx' with
        | .error e => .error e
        | .ok (ns', ctx'') => .ok (n' :: ns', ctx'')

end

/-- Modelled from the spec: ts_hypertable_restrict_info_create
(hypertable_restrict_info.c is not part of the analysed source); a fresh
restrict-info accumulator holds no restrictions. -/
def ts_hypertable_restrict_info_create : List RestrictInfo := []

/-- Modelled from the spec: ts_hypertable_restrict_info_add hands the
collected predicate set to the range-exclusion capability, which keeps
the restrictions it can use for dimension range reasoning. -/
def ts_hypertable_restrict_info_add (env : PlannerEnv)
    (hri : List RestrictInfo) (restrictions : List RestrictInfo) :
    List RestrictInfo :=
  hri ++ restrictions.filter env.restriction_usable

/-- Modelled from the spec: ts_hypertable_restrict_info_has_restrictions
is true iff some restriction was added. -/
def ts_hypertable_restrict_info_has_restrictions (hri : List RestrictInfo) : Bool :=
  !hri.isEmpty

/-- find_children_oids: with no usable restrictions use the cached
inheritance hierarchy, otherwise ask the range-exclusion capability. -/
def find_children_oids (env : PlannerEnv) (hri : List RestrictInfo)
    (ht : Hypertable) : List Oid :=
  if !(ts_hypertable_restrict_info_has_restrictions hri) then
    env.find_inheritance_children ht.main_table_relid
  else
    env.restrict_info_chunk_oids hri ht.main_table_relid

/-- Row mark of the plan (PlanRowMark): relation index and mark type;
mark types at most ROW_MARK_KEYSHARE (3) require a row share lock. -/
structure PlanRowMark where
  rti : Nat
  markType : Nat
deriving Repr, DecidableEq

def ROW_MARK_KEYSHARE : Nat := 3

/-- RowMarkRequiresRowShareLock: true for exclusive, no-key-update,
share and key-share marks. -/
def RowMarkRequiresRowShareLock (markType : Nat) : Bool :=
  decide (markType ≤ ROW_MARK_KEYSHARE)

/-- get_plan_rowmark: the row mark registered for the given relation
index, if any. -/
def get_plan_rowmark (rowMarks : List PlanRowMark) (rti : Nat) :
    Option PlanRowMark :=
  rowMarks.find? (fun rc => rc.rti = rti)

/-- Query fields the core reads: the jointree, the result relation, the
parse-level row marks and the sort clause. -/
structure Query where
  jointree : JoinTreeNode
  resultRelation : Nat
  rowMarks : List PlanRowMark
  sortClause : List Nat
deriving Repr

/-- PlannerInfo fields the core reads: the parsed query, the plan row
marks, the limit estimate (-1 when the query has no LIMIT) and the
current qualifier security level. -/
structure PlannerInfoM where
  parse : Query
  rowMarks : List PlanRowMark
  limit_tuples : Int
  qual_security_level : Nat
deriving Repr

/-- RangeTblEntry fields the validity check reads. -/
structure RangeTblEntry where
  inh : Bool
deriving Repr, DecidableEq

/-- ts_plan_expand_hypertable_valid_hypertable: expansion applies only
to a present hypertable with inheritance enabled, no row marks and no
result relation. -/
def ts_plan_expand_hypertable_valid_hypertable (ht : Option Hypertable)
    (parse : Query) (rti : Nat) (rte : RangeTblEntry) : Bool :=
  if ht = none ∨ rte.inh = false ∨ parse.rowMarks ≠ [] ∨ 0 ≠ parse.resultRelation then
    false
  else true

/-- should_order_append: some reverse when ordered append is requested
(the boolean is the requested direction), none otherwise. -/
def should_order_append (env : PlannerEnv) (root : PlannerInfoM)
    (rel : RelOptInfoM) (ht : Hypertable) : Option Bool :=
  -- check if optimizations are enabled
  if env.ts_guc_disable_optimizations ∨ !env.ts_guc_enable_ordered_append then none
  -- only for hypertables with 1 dimension and queries with ORDER BY and LIMIT
  else if ht.num_dimensions ≠ 1 ∨ root.parse.sortClause = [] ∨ root.limit_tuples = -1 then
    none
  else env.ordered_append_should_optimize root.limit_tuples root.parse.sortClause rel ht

/-- Decode and validate the elements of the chunks_in id array, in array
order: a NULL element, an unknown chunk id, or a chunk of a foreign
hypertable is a fatal error naming the offending id. -/
def decode_chunk_ids (env : PlannerEnv) (ht : Hypertable) :
    List (Option Int) → Except PlanError (List Oid)
  | [] => .ok []
  | none :: _ => .error .nullChunkId
  | some chunk_id :: rest =>
    match env.ts_chunk_get_by_id chunk_id with
    | none => .error (.chunkNotFound chunk_id)
    | some chunk =>
      if chunk.hypertable_id ≠ ht.id then .error (.foreignChunk chunk_id)
      else
        match decode_chunk_ids env ht rest with
        | .ok oids => .ok (chunk.table_id :: oids)
        | .error e => .error e

/-- get_explicit_chunk_oids: chunk oids named by the explicit chunk
exclusion function recorded in the context; the second argument must be
a constant array.  The recorded node always is a 2-argument FuncExpr
whose second argument, being of an array type, carries an array datum
(defaulted otherwise). -/
def get_explicit_chunk_oids (env : PlannerEnv) (ctx : CollectQualCtx)
    (ht : Hypertable) : Except PlanError (List Oid) :=
  match ctx.chunk_exclusion_func with
  | some (.funcE _ _ [_, arg2]) =>
    match arg2 with
    | .constE _ _ (.arrayVal elems) => decode_chunk_ids env ht elems
    | .constE _ _ _ => .ok []
    | _ => .error .secondArgNotConstArray
  | _ => .ok []

/-- get_chunk_oids: chunk oids from restrict info or explicit chunk
exclusion; explicit chunk exclusion takes precedence.  Returns the oid
list together with the relation's updated private state (appends_ordered
is set when the ordered path is taken and the private state exists). -/
def get_chunk_oids (env : PlannerEnv) (ctx : CollectQualCtx)
    (root : PlannerInfoM) (rel : RelOptInfoM) (ht : Hypertable) :
    Except PlanError (List Oid × Option TimescaleDBPrivate) :=
  match ctx.chunk_exclusion_func with
  | none =>
    let hri := ts_hypertable_restrict_info_add env
                 ts_hypertable_restrict_info_create ctx.restrictions
    match should_order_append env root rel ht with
    | some reverse =>
      let fdw :=
        match rel.fdw_private with
        | some p => some { p with appends_ordered := true }
        | none => none
      .ok (env.restrict_info_chunk_oids_ordered hri ht.main_table_relid reverse, fdw)
    | none => .ok (find_children_oids env hri ht, rel.fdw_private)
  | some _ =>
    match get_explicit_chunk_oids env ctx ht with
    | .ok oids => .ok (oids, rel.fdw_private)
    | .error e => .error e

/-- init_chunk_exclusion_func: look the chunks_in marker function up
once and cache the result (InvalidOid marks both the uninitialized state
and a failed lookup; the debug-only Assert is a release no-op). -/
def init_chunk_exclusion_func (env : PlannerEnv) (cached : Oid) : Oid :=
  if cached = InvalidOid then env.get_function_oid_chunks_in else cached

/-- Result of the modelled part of the expansion entry point: the
mutated jointree, the final collection context, the resolved chunk oids
and the relation's updated private state. -/
structure ExpandResult where
  jointree : JoinTreeNode
  ctx : CollectQualCtx
  chunk_oids : List Oid
  fdw_private : Option TimescaleDBPrivate
deriving Repr

/-- Body of ts_plan_expand_hypertable_chunks after the row-mark check:
initialize the cached marker oid, walk the jointree and resolve the
chunk oids.  The subsequent per-chunk planning-structure mutation is
outside the modelled scope. -/
def ts_plan_expand_hypertable_chunks_body (env : PlannerEnv) (cached : Oid)
    (ht : Hypertable) (root : PlannerInfoM) (rel : RelOptInfoM) :
    Except PlanError ExpandResult :=
  let excl := init_chunk_exclusion_func env cached
  match collect_quals_walker env excl rel.relid root.qual_security_level
          root.parse.jointree { restrictions := [], chunk_exclusion_func := none } with
  | .error e => .error e
  | .ok (jt, ctx) =>
    match get_chunk_oids env ctx root rel ht with
    | .error e => .error e
    | .ok (oids, fdw) => .ok ⟨jt, ctx, oids, fdw⟩

/-- ts_plan_expand_hypertable_chunks (modelled prefix): fail when a row
mark requiring a row share lock exists for the target relation, then
collect quals and resolve chunks. -/
def ts_plan_expand_hypertable_chunks (env : PlannerEnv) (cached : Oid)
    (ht : Hypertable) (root : PlannerInfoM) (rel : RelOptInfoM) :
    Except PlanError ExpandResult :=
  match get_plan_rowmark root.rowMarks rel.relid with
  | some oldrc =>
    if RowMarkRequiresRowShareLock oldrc.markType then .error .unexpectedPermissions
    else ts_plan_expand_hypertable_chunks_body env cached ht root rel
  | none => ts_plan_expand_hypertable_chunks_body env cached ht root rel

/-
Concrete instances used by the witnesses and counterexamples.  Oids
follow the PostgreSQL catalog: int4 type 23, integer_ops btree family
1976 with < 97, <= 523, >= 525, > 521, int4 + 551; timestamptz 1184 with
family 434, < 1110, <= 1111, > 1112, >= 1113, timestamptz + interval
1327.  The time_bucket function is oid 600, chunks_in is 700.
-/

def testEnv : PlannerEnv where
  get_commutator o :=
    if o = 97 then 521 else if o = 521 then 97
    else if o = 523 then 525 else if o = 525 then 523 else InvalidOid
  btree_opf_of_type t :=
    if t = 23 then 1976 else if t = TIMESTAMPTZOID then 434 else InvalidOid
  get_op_opfamily_strategy o fam :=
    if fam = 1976 then
      if o = 97 then 1 else if o = 523 then 2
      else if o = 525 then 4 else if o = 521 then 5 else 0
    else if fam = 434 then
      if o = 1110 then 1 else if o = 1111 then 2
      else if o = 1113 then 4 else if o = 1112 then 5 else 0
    else 0
  get_operator_plus t1 t2 :=
    if t1 = 23 ∧ t2 = 23 then 551
    else if t1 = TIMESTAMPTZOID ∧ t2 = INTERVALOID then 1327 else InvalidOid
  get_op_rettype o :=
    if o = 551 then 23 else if o = 1327 then TIMESTAMPTZOID else InvalidOid
  get_cast_func _ _ := InvalidOid
  func_name f :=
    if f = 600 then "time_bucket" else if f = 700 then "chunks_in" else "other"
  estimate_expression_value := id
  get_function_oid_chunks_in := 700
  ts_chunk_get_by_id cid :=
    if cid = 3 then some ⟨1, 103⟩ else if cid = 4 then some ⟨1, 104⟩
    else if cid = 7 then some ⟨2, 107⟩ else none
  find_inheritance_children o := if o = 500 then [101, 102, 103] else []
  restriction_usable _ := true
  restrict_info_chunk_oids _ _ := [102]
  restrict_info_chunk_oids_ordered _ _ reverse :=
    if reverse then [103, 102, 101] else [101, 102, 103]
  ordered_append_should_optimize _ _ _ _ := some true
  ts_guc_disable_optimizations := false
  ts_guc_enable_ordered_append := true

/-- Test hypertable: id 1, root relation oid 500, one dimension. -/
def testHt : Hypertable := ⟨1, "ht", 500, 1⟩

/-- Integer column t of relation 1 at attribute 1. -/
def tVar : PExpr := .varE 1 1 23

/-- Integer constant. -/
def intConst (v : Int) : PExpr := .constE 23 false (.intVal v)

/-- time_bucket(10, t). -/
def bucketCall : PExpr := .funcE 600 23 [intConst 10, tVar]

/-- chunks_in(t-record, ARRAY[ids]). -/
def chunksInCall (ids : List (Option Int)) : PExpr :=
  .funcE 700 16 [.varE 1 0 RECORDOID, .constE INT4ARRAYOID false (.arrayVal ids)]

def testRoot (jt : JoinTreeNode) : PlannerInfoM :=
  { parse := { jointree := jt, resultRelation := 0, rowMarks := [], sortClause := [] },
    rowMarks := [], limit_tuples := -1, qual_security_level := 0 }

def testRel : RelOptInfoM := ⟨1, some ⟨false⟩⟩

/-
Helper notions used to state the theorems.
-/

/-- Condition under which process_quals treats a conjunct as the
explicit chunk selector of the target relation: the conjunct references
exactly the target relation and is a call to the cached marker oid. -/
def isSelectorConjunct (excl : Oid) (relid : Nat) (q : PExpr) : Bool :=
  (decide ((qualRelids q).length = 1) && decide (relid ∈ qualRelids q))
    && is_chunk_exclusion_func excl q

/-- A node whose top-level funcid is valid (any non-FuncExpr counts);
every function call of a well-formed plan satisfies this. -/
def topFuncIdValid : PExpr → Bool
  | .funcE fid _ _ => decide (fid ≠ InvalidOid)
  | _ => true

mutual

/-- All quals of the jointree have valid top-level funcids. -/
def jtTopFuncIdsValid : JoinTreeNode → Bool
  | .rangeTblRef _ => true
  | .fromExpr fl quals => quals.all topFuncIdValid && jtTopFuncIdsValidList fl
  | .joinExpr l r quals =>
      quals.all topFuncIdValid && jtTopFuncIdsValid l && jtTopFuncIdsValid r

/-- List version of jtTopFuncIdsValid. -/
def jtTopFuncIdsValidList : List JoinTreeNode → Bool
  | [] => true
  | n :: ns => jtTopFuncIdsValid n && jtTopFuncIdsValidList ns

end

/-- All elements of the id array name known chunks of the hypertable. -/
def elemsValid (env : PlannerEnv) (ht : Hypertable) (elems : List (Option Int)) : Bool :=
  elems.all fun e =>
    match e with
    | some cid =>
      match env.ts_chunk_get_by_id cid with
      | some c => decide (c.hypertable_id = ht.id)
      | none => false
    | none => false

/-- The physical oids of the chunks named by the id array, in array
order (meaningful when elemsValid holds). -/
def decodedOids (env : PlannerEnv) (elems : List (Option Int)) : List Oid :=
  elems.map fun e =>
    match e with
    | some cid =>
      match env.ts_chunk_get_by_id cid with
      | some c => c.table_id
      | none => InvalidOid
    | none => InvalidOid

/-
Helper lemmas.
-/

theorem decode_chunk_ids_all_valid (env : PlannerEnv) (ht : Hypertable) :
    ∀ elems, elemsValid env ht elems = true →
    decode_chunk_ids env ht elems = .ok (decodedOids env elems) := by
  intro elems
  induction elems with
  | nil => intro _; simp [decode_chunk_ids, decodedOids]
  | cons e rest ih =>
    intro hv
    simp only [elemsValid, List.all_cons, Bool.and_eq_true] at hv
    obtain ⟨he, hrest⟩ := hv
    cases e with
    | none => simp at he
    | some cid =>
      cases hc : env.ts_chunk_get_by_id cid with
      | none => simp only [hc] at he; simp at he
      | some c =>
        simp only [hc, decide_eq_true_eq] at he
        simp [decode_chunk_ids, hc, he, ih hrest, decodedOids]

theorem decode_chunk_ids_append_valid (env : PlannerEnv) (ht : Hypertable) :
    ∀ pre l, elemsValid env ht pre = true →
    decode_chunk_ids env ht (pre ++ l) =
      (decode_chunk_ids env ht l).map (fun oids => decodedOids env pre ++ oids) := by
  intro pre
  induction pre with
  | nil =>
    intro l _
    simp only [List.nil_append, decodedOids, List.map_nil]
    cases h : decode_chunk_ids env ht l <;> simp [Except.map]
  | cons e rest ih =>
    intro l hv
    simp only [elemsValid, List.all_cons, Bool.and_eq_true] at hv
    obtain ⟨he, hrest⟩ := hv
    cases e with
    | none => simp at he
    | some cid =>
      cases hc : env.ts_chunk_get_by_id cid with
      | none => simp only [hc] at he; simp at he
      | some c =>
        simp only [hc, decide_eq_true_eq] at he
        have ihl := ih l hrest
        simp only [List.cons_append, decode_chunk_ids, hc, he, ne_eq,
          not_true_eq_false, if_false, decodedOids, List.map_cons]
        cases h : decode_chunk_ids env ht l <;>
          simp only [List.append_eq] at ihl ⊢ <;> rw [ihl, h] <;>
          simp [Except.map, decodedOids]

theorem process_quals_found_restrictions_nil (env : PlannerEnv) (excl : Oid)
    (relid sec : Nat) :
    ∀ (quals : List PExpr) (ctx : CollectQualCtx) (qs' : List PExpr)
      (ctx' : CollectQualCtx),
    ctx.chunk_exclusion_func = none →
    process_quals env excl relid sec quals ctx = .ok (qs', ctx') →
    ctx'.chunk_exclusion_func.isSome = true →
    ctx'.restrictions = [] := by
  intro quals
  induction quals with
  | nil =>
    intro ctx qs' ctx' hnone hok hsome
    simp only [process_quals, Except.ok.injEq, Prod.mk.injEq] at hok
    obtain ⟨-, h2⟩ := hok
    subst h2
    rw [hnone] at hsome
    simp at hsome
  | cons q rest ih =>
    intro ctx qs' ctx' hnone hok hsome
    simp only [process_quals] at hok
    by_cases hrel : (qualRelids q).length = 1 ∧ relid ∈ qualRelids q
    · rw [if_neg (not_not_intro hrel)] at hok
      by_cases hexcl : is_chunk_exclusion_func excl q = true
      · rw [if_pos hexcl] at hok
        split at hok
        · split at hok
          · simp at hok
          · simp only [Except.ok.injEq, Prod.mk.injEq] at hok
            obtain ⟨-, h2⟩ := hok
            subst h2
            rfl
        · simp at hok
      · rw [if_neg hexcl] at hok
        cases hr : process_quals env excl relid sec rest
            { ctx with restrictions := ctx.restrictions ++
                [make_restrictinfo
                  (if is_time_bucket_comparison env q then
                    transform_time_bucket_comparison env q
                  else q) sec (qualRelids q)] } with
        | error e => rw [hr] at hok; simp at hok
        | ok p =>
          obtain ⟨rest', ctx2⟩ := p
          rw [hr] at hok
          simp only [Except.ok.injEq, Prod.mk.injEq] at hok
          obtain ⟨-, h2⟩ := hok
          subst h2
          exact ih _ _ _ (by simpa using hnone) hr hsome
    · rw [if_pos hrel] at hok
      cases hr : process_quals env excl relid sec rest ctx with
      | error e => rw [hr] at hok; simp at hok
      | ok p =>
        obtain ⟨rest', ctx2⟩ := p
        rw [hr] at hok
        simp only [Except.ok.injEq, Prod.mk.injEq] at hok
        obtain ⟨-, h2⟩ := hok
        subst h2
        exact ih _ _ _ hnone hr hsome

theorem process_quals_no_selector (env : PlannerEnv) (excl : Oid)
    (relid sec : Nat) :
    ∀ (quals : List PExpr) (ctx : CollectQualCtx),
    (∀ q ∈ quals, is_chunk_exclusion_func excl q = false) →
    ∃ rs, process_quals env excl relid sec quals ctx =
      .ok (quals, { restrictions := rs,
                    chunk_exclusion_func := ctx.chunk_exclusion_func }) := by
  intro quals
  induction quals with
  | nil =>
    intro ctx _
    exact ⟨ctx.restrictions, rfl⟩
  | cons q rest ih =>
    intro ctx hno
    have hq : is_chunk_exclusion_func excl q = false := hno q (by simp)
    have hrest : ∀ p ∈ rest, is_chunk_exclusion_func excl p = false :=
      fun p hp => hno p (by simp [hp])
    simp only [process_quals]
    by_cases hrel : (qualRelids q).length = 1 ∧ relid ∈ qualRelids q
    · rw [if_neg (not_not_intro hrel), if_neg (by simp [hq])]
      obtain ⟨rs, hr⟩ := ih { ctx with restrictions := ctx.restrictions ++
          [make_restrictinfo
            (if is_time_bucket_comparison env q then
              transform_time_bucket_comparison env q
            else q) sec (qualRelids q)] } hrest
      rw [hr]
      exact ⟨rs, rfl⟩
    · rw [if_pos hrel]
      obtain ⟨rs, hr⟩ := ih ctx hrest
      rw [hr]
      exact ⟨rs, rfl⟩

mutual

theorem collect_quals_walker_found_inv (env : PlannerEnv) (excl : Oid)
    (relid sec : Nat) (t : JoinTreeNode) :
    ∀ (ctx : CollectQualCtx) (t' : JoinTreeNode) (ctx' : CollectQualCtx),
    ctx.chunk_exclusion_func = none →
    collect_quals_walker env excl relid sec t ctx = .ok (t', ctx') →
    ctx'.chunk_exclusion_func.isSome = true →
    ctx'.restrictions = [] := by
  cases t with
  | rangeTblRef rti =>
    intro ctx t' ctx' hnone hok hsome
    simp only [collect_quals_walker, Except.ok.injEq, Prod.mk.injEq] at hok
    obtain ⟨-, h2⟩ := hok
    subst h2
    rw [hnone] at hsome
    simp at hsome
  | fromExpr fl quals =>
    intro ctx t' ctx' hnone hok hsome
    simp only [collect_quals_walker] at hok
    cases hp : process_quals env excl relid sec quals ctx with
    | error e => simp only [hp] at hok; simp at hok
    | ok p =>
      obtain ⟨quals', ctx1⟩ := p
      simp only [hp] at hok
      by_cases hs1 : ctx1.chunk_exclusion_func.isSome = true
      · rw [if_pos hs1] at hok
        simp only [Except.ok.injEq, Prod.mk.injEq] at hok
        obtain ⟨-, h2⟩ := hok
        subst h2
        exact process_quals_found_restrictions_nil env excl relid sec
          quals ctx _ _ hnone hp hs1
      · rw [if_neg hs1] at hok
        have hn1 : ctx1.chunk_exclusion_func = none :=
          Option.not_isSome_iff_eq_none.mp hs1
        cases hl : collect_quals_walker_list env excl relid sec fl ctx1 with
        | error e => simp only [hl] at hok; simp at hok
        | ok p2 =>
          obtain ⟨fl', ctx2⟩ := p2
          simp only [hl] at hok
          simp only [Except.ok.injEq, Prod.mk.injEq] at hok
          obtain ⟨-, h2⟩ := hok
          subst h2
          exact collect_quals_walker_list_found_inv env excl relid sec fl ctx1 _ _ hn1 hl hsome
  | joinExpr larg rarg quals =>
    intro ctx t' ctx' hnone hok hsome
    simp only [collect_quals_walker] at hok
    cases hp : process_quals env excl relid sec quals ctx with
    | error e => simp only [hp] at hok; simp at hok
    | ok p =>
      obtain ⟨quals', ctx1⟩ := p
      simp only [hp] at hok
      by_cases hs1 : ctx1.chunk_exclusion_func.isSome = true
      · rw [if_pos hs1] at hok
        simp only [Except.ok.injEq, Prod.mk.injEq] at hok
        obtain ⟨-, h2⟩ := hok
        subst h2
        exact process_quals_found_restrictions_nil env excl relid sec
          quals ctx _ _ hnone hp hs1
      · rw [if_neg hs1] at hok
        have hn1 : ctx1.chunk_exclusion_func = none :=
          Option.not_isSome_iff_eq_none.mp hs1
        cases hlw : collect_quals_walker env excl relid sec larg ctx1 with
        | error e => simp only [hlw] at hok; simp at hok
        | ok pl =>
          obtain ⟨larg', ctx2⟩ := pl
          simp only [hlw] at hok
          by_cases hs2 : ctx2.chunk_exclusion_func.isSome = true
          · rw [if_pos hs2] at hok
            simp only [Except.ok.injEq, Prod.mk.injEq] at hok
            obtain ⟨-, h2⟩ := hok
            subst h2
            exact collect_quals_walker_found_inv env excl relid sec larg ctx1 _ _ hn1 hlw hs2
          · rw [if_neg hs2] at hok
            have hn2 : ctx2.chunk_exclusion_func = none :=
              Option.not_isSome_iff_eq_none.mp hs2
            cases hrw : collect_quals_walker env excl relid sec rarg ctx2 with
            | error e => simp only [hrw] at hok; simp at hok
            | ok pr =>
              obtain ⟨rarg', ctx3⟩ := pr
              simp only [hrw] at hok
              simp only [Except.ok.injEq, Prod.mk.injEq] at hok
              obtain ⟨-, h2⟩ := hok
              subst h2
              exact collect_quals_walker_found_inv env excl relid sec rarg ctx2 _ _ hn2 hrw hsome

theorem collect_quals_walker_list_found_inv (env : PlannerEnv) (excl : Oid)
    (relid sec : Nat) (ts : List JoinTreeNode) :
    ∀ (ctx : CollectQualCtx) (ts' : List JoinTreeNode) (ctx' : CollectQualCtx),
    ctx.chunk_exclusion_func = none →
    collect_quals_walker_list env excl relid sec ts ctx = .ok (ts', ctx') →
    ctx'.chunk_exclusion_func.isSome = true →
    ctx'.restrictions = [] := by
  cases ts with
  | nil =>
    intro ctx ts' ctx' hnone hok hsome
    simp only [collect_quals_walker_list, Except.ok.injEq, Prod.mk.injEq] at hok
    obtain ⟨-, h2⟩ := hok
    subst h2
    rw [hnone] at hsome
    simp at hsome
  | cons n ns =>
    intro ctx ts' ctx' hnone hok hsome
    simp only [collect_quals_walker_list] at hok
    cases hw : collect_quals_walker env excl relid sec n ctx with
    | error e => simp only [hw] at hok; simp at hok
    | ok p =>
      obtain ⟨n', ctx1⟩ := p
      simp only [hw] at hok
      by_cases hs1 : ctx1.chunk_exclusion_func.isSome = true
      · rw [if_pos hs1] at hok
        simp only [Except.ok.injEq, Prod.mk.injEq] at hok
        obtain ⟨-, h2⟩ := hok
        subst h2
        exact collect_quals_walker_found_inv env excl relid sec n ctx _ _ hnone hw hs1
      · rw [if_neg hs1] at hok
        have hn1 : ctx1.chunk_exclusion_func = none :=
          Option.not_isSome_iff_eq_none.mp hs1
        cases hl : collect_quals_walker_list env excl relid sec ns ctx1 with
        | error e => simp only [hl] at hok; simp at hok
        | ok p2 =>
          obtain ⟨ns', ctx2⟩ := p2
          simp only [hl] at hok
          simp only [Except.ok.injEq, Prod.mk.injEq] at hok
          obtain ⟨-, h2⟩ := hok
          subst h2
          exact collect_quals_walker_list_found_inv env excl relid sec ns ctx1 _ _ hn1 hl hsome

end

theorem topFuncIdValid_no_selector (q : PExpr) (h : topFuncIdValid q = true) :
    is_chunk_exclusion_func InvalidOid q = false := by
  cases q with
  | funcE fid frt args =>
    simp only [topFuncIdValid, decide_eq_true_eq] at h
    simp [is_chunk_exclusion_func, h]
  | constE a b c => rfl
  | varE a b c => rfl
  | opE a b c d => rfl

mutual

theorem collect_quals_walker_no_selector (env : PlannerEnv) (relid sec : Nat)
    (t : JoinTreeNode) :
    ∀ (ctx : CollectQualCtx), ctx.chunk_exclusion_func = none →
    jtTopFuncIdsValid t = true →
    ∃ rs, collect_quals_walker env InvalidOid relid sec t ctx =
      .ok (t, { restrictions := rs, chunk_exclusion_func := none }) := by
  cases t with
  | rangeTblRef rti =>
    intro ctx hnone _
    refine ⟨ctx.restrictions, ?_⟩
    simp only [collect_quals_walker, Except.ok.injEq, Prod.mk.injEq]
    exact ⟨trivial, by cases ctx; simp_all⟩
  | fromExpr fl quals =>
    intro ctx hnone hvalid
    simp only [jtTopFuncIdsValid, Bool.and_eq_true, List.all_eq_true] at hvalid
    obtain ⟨hquals, hfl⟩ := hvalid
    obtain ⟨rs1, hp⟩ := process_quals_no_selector env InvalidOid relid sec quals ctx
      (fun q hq => topFuncIdValid_no_selector q (hquals q hq))
    rw [hnone] at hp
    obtain ⟨rs2, hl⟩ := collect_quals_walker_list_no_selector env relid sec fl
      { restrictions := rs1, chunk_exclusion_func := none } rfl hfl
    refine ⟨rs2, ?_⟩
    simp only [collect_quals_walker, hp, Option.isSome_none, Bool.false_eq_true,
      if_false, hl]
  | joinExpr larg rarg quals =>
    intro ctx hnone hvalid
    simp only [jtTopFuncIdsValid, Bool.and_eq_true, List.all_eq_true] at hvalid
    obtain ⟨⟨hquals, hlv⟩, hrv⟩ := hvalid
    obtain ⟨rs1, hp⟩ := process_quals_no_selector env InvalidOid relid sec quals ctx
      (fun q hq => topFuncIdValid_no_selector q (hquals q hq))
    rw [hnone] at hp
    obtain ⟨rs2, hlw⟩ := collect_quals_walker_no_selector env relid sec larg
      { restrictions := rs1, chunk_exclusion_func := none } rfl hlv
    obtain ⟨rs3, hrw⟩ := collect_quals_walker_no_selector env relid sec rarg
      { restrictions := rs2, chunk_exclusion_func := none } rfl hrv
    refine ⟨rs3, ?_⟩
    simp only [collect_quals_walker, hp, Option.isSome_none, Bool.false_eq_true,
      if_false, hlw, hrw]

theorem collect_quals_walker_list_no_selector (env : PlannerEnv) (relid sec : Nat)
    (ts : List JoinTreeNode) :
    ∀ (ctx : CollectQualCtx), ctx.chunk_exclusion_func = none →
    jtTopFuncIdsValidList ts = true →
    ∃ rs, collect_quals_walker_list env InvalidOid relid sec ts ctx =
      .ok (ts, { restrictions := rs, chunk_exclusion_func := none }) := by
  cases ts with
  | nil =>
    intro ctx hnone _
    refine ⟨ctx.restrictions, ?_⟩
    simp only [collect_quals_walker_list, Except.ok.injEq, Prod.mk.injEq]
    exact ⟨trivial, by cases ctx; simp_all⟩
  | cons n ns =>
    intro ctx hnone hvalid
    simp only [jtTopFuncIdsValidList, Bool.and_eq_true] at hvalid
    obtain ⟨hn, hns⟩ := hvalid
    obtain ⟨rs1, hw⟩ := collect_quals_walker_no_selector env relid sec n ctx hnone hn
    obtain ⟨rs2, hl⟩ := collect_quals_walker_list_no_selector env relid sec ns
      { restrictions := rs1, chunk_exclusion_func := none } rfl hns
    refine ⟨rs2, ?_⟩
    simp only [collect_quals_walker_list, hw, Option.isSome_none, Bool.false_eq_true,
      if_false, hl]

end

theorem process_quals_selector_found (env : PlannerEnv) (excl : Oid)
    (relid sec : Nat) :
    ∀ (qs1 : List PExpr) (fid frt : Oid) (arg1 : PExpr) (args1 : List PExpr)
      (qs2 : List PExpr) (ctx : CollectQualCtx),
    (∀ q ∈ qs1, isSelectorConjunct excl relid q = false) →
    isSelectorConjunct excl relid (.funcE fid frt (arg1 :: args1)) = true →
    arg1.isVar = true →
    process_quals env excl relid sec
        (qs1 ++ .funcE fid frt (arg1 :: args1) :: qs2) ctx =
      .ok (qs1 ++ qs2,
        { restrictions := [],
          chunk_exclusion_func := some (.funcE fid frt (arg1 :: args1)) }) := by
  intro qs1
  induction qs1 with
  | nil =>
    intro fid frt arg1 args1 qs2 ctx _ hsel hvar
    simp only [isSelectorConjunct, Bool.and_eq_true, decide_eq_true_eq] at hsel
    obtain ⟨⟨hlen, hmem⟩, hexcl⟩ := hsel
    simp only [List.nil_append, process_quals]
    rw [if_neg (not_not_intro ⟨hlen, hmem⟩), if_pos hexcl]
    simp [hvar]
  | cons q qs1' ih =>
    intro fid frt arg1 args1 qs2 ctx hno hsel hvar
    have hq := hno q (by simp)
    have hrest : ∀ p ∈ qs1', isSelectorConjunct excl relid p = false :=
      fun p hp => hno p (by simp [hp])
    simp only [List.cons_append, process_quals]
    by_cases hrel : (qualRelids q).length = 1 ∧ relid ∈ qualRelids q
    · have hexcl : is_chunk_exclusion_func excl q = false := by
        cases hie : is_chunk_exclusion_func excl q
        · rfl
        · exfalso
          simp [isSelectorConjunct, hie, hrel.1, hrel.2] at hq
      rw [if_neg (not_not_intro hrel), if_neg (by simp [hexcl])]
      simp only [List.append_eq]
      rw [ih fid frt arg1 args1 qs2
        { ctx with restrictions := ctx.restrictions ++
            [make_restrictinfo
              (if is_time_bucket_comparison env q then
                transform_time_bucket_comparison env q
              else q) sec (qualRelids q)] } hrest hsel hvar]
    · rw [if_pos hrel]
      simp only [List.append_eq]
      rw [ih fid frt arg1 args1 qs2 ctx hrest hsel hvar]

theorem exprType_constE (t : Oid) (n : Bool) (v : Datum) :
    exprType (.constE t n v) = t := rfl

theorem exprType_funcE (fid t : Oid) (args : List PExpr) :
    exprType (.funcE fid t args) = t := rfl

/-
Claim theorems.
-/

/-- C1: for a comparison between a 2-argument bucket call and a constant,
when the operator (commuted first if the bucket call is on the right)
resolves through the column type's btree ordering family to the greater
or greater-or-equal strategy, the rewriter returns the comparison of the
column against the constant, dropping the width and preserving the
resolved operator. -/
theorem c1_bucket_greater_rewrite :
    (∀ (env : PlannerEnv) (tbid tb_rt opno opfid rt ct : Oid) (cn : Bool)
       (cv : Datum) (width column : PExpr),
     exprType column = tb_rt →
     (env.get_op_opfamily_strategy opno (env.btree_opf_of_type tb_rt) =
        BTGreaterStrategyNumber ∨
      env.get_op_opfamily_strategy opno (env.btree_opf_of_type tb_rt) =
        BTGreaterEqualStrategyNumber) →
     transform_time_bucket_comparison env
         (.opE opno opfid rt [.funcE tbid tb_rt [width, column], .constE ct cn cv]) =
       .opE opno opfid rt [column, .constE ct cn cv]) ∧
    (∀ (env : PlannerEnv) (tbid tb_rt opno opfid rt ct : Oid) (cn : Bool)
       (cv : Datum) (width column : PExpr),
     exprType column = tb_rt →
     env.get_commutator opno ≠ InvalidOid →
     (env.get_op_opfamily_strategy (env.get_commutator opno)
        (env.btree_opf_of_type tb_rt) = BTGreaterStrategyNumber ∨
      env.get_op_opfamily_strategy (env.get_commutator opno)
        (env.btree_opf_of_type tb_rt) = BTGreaterEqualStrategyNumber) →
     transform_time_bucket_comparison env
         (.opE opno opfid rt [.constE ct cn cv, .funcE tbid tb_rt [width, column]]) =
       .opE (env.get_commutator opno) InvalidOid rt [column, .constE ct cn cv]) := by
  constructor
  · intro env tbid tb_rt opno opfid rt ct cn cv width column _ hstrat
    rcases hstrat with h | h <;>
      simp [transform_time_bucket_comparison, PExpr.isFunc, PExpr.isConst, h,
        BTGreaterStrategyNumber, BTGreaterEqualStrategyNumber]
  · intro env tbid tb_rt opno opfid rt ct cn cv width column _ hcomm hstrat
    rcases hstrat with h | h <;>
      simp [transform_time_bucket_comparison, PExpr.isFunc, PExpr.isConst, h,
        hcomm, BTGreaterStrategyNumber, BTGreaterEqualStrategyNumber]

/-- Witness for C1: time_bucket(10, t) greater 109 becomes t greater 109,
and 100 less time_bucket(10, t) is commuted to greater and rewritten the
same way (concrete integer catalog). -/
theorem c1_bucket_greater_rewrite_witness :
    transform_time_bucket_comparison testEnv
        (.opE 521 147 16 [.funcE 600 23 [intConst 10, tVar], intConst 109]) =
      .opE 521 147 16 [tVar, intConst 109] ∧
    transform_time_bucket_comparison testEnv
        (.opE 97 66 16 [intConst 100, .funcE 600 23 [intConst 10, tVar]]) =
      .opE 521 InvalidOid 16 [tVar, intConst 100] := by
  constructor
  · exact c1_bucket_greater_rewrite.1 testEnv 600 23 521 147 16 23 false
      (.intVal 109) (intConst 10) tVar rfl (Or.inl rfl)
  · exact c1_bucket_greater_rewrite.2 testEnv 600 23 97 66 16 23 false
      (.intVal 100) (intConst 10) tVar rfl (by decide) (Or.inl rfl)

/-- C2: for a comparison bucket(width, column) OP value resolving to the
less or less-or-equal strategy (here away from the timestamptz special
cases), the rewriter returns column OP (value + width), where the
addition uses the native pg_catalog "+" operator for the operand types,
wrapped in a cast back to the column's type when the "+" result type
differs from it. -/
theorem c2_bucket_less_rewrite (env : PlannerEnv)
    (tbid tb_rt opno opfid rt ct : Oid) (cn : Bool) (cv : Datum)
    (width column : PExpr) :
    exprType column = tb_rt →
    tb_rt ≠ TIMESTAMPTZOID →
    (env.get_op_opfamily_strategy opno (env.btree_opf_of_type tb_rt) =
       BTLessStrategyNumber ∨
     env.get_op_opfamily_strategy opno (env.btree_opf_of_type tb_rt) =
       BTLessEqualStrategyNumber) →
    env.get_operator_plus ct (exprType width) ≠ InvalidOid →
    (tb_rt = env.get_op_rettype (env.get_operator_plus ct (exprType width)) ∨
     env.get_cast_func
       (env.get_op_rettype (env.get_operator_plus ct (exprType width))) tb_rt ≠
       InvalidOid) →
    transform_time_bucket_comparison env
        (.opE opno opfid rt [.funcE tbid tb_rt [width, column], .constE ct cn cv]) =
      .opE opno opfid rt [column,
        if tb_rt = env.get_op_rettype (env.get_operator_plus ct (exprType width)) then
          .opE (env.get_operator_plus ct (exprType width)) InvalidOid tb_rt
            [.constE ct cn cv, width]
        else
          .funcE
            (env.get_cast_func
              (env.get_op_rettype (env.get_operator_plus ct (exprType width))) tb_rt)
            tb_rt
            [.opE (env.get_operator_plus ct (exprType width)) InvalidOid tb_rt
              [.constE ct cn cv, width]]] := by
  intro _ htz hstrat hplus hcast
  by_cases hrt : tb_rt = env.get_op_rettype (env.get_operator_plus ct (exprType width))
  · subst hrt
    rcases hstrat with h | h <;>
      simp [transform_time_bucket_comparison, PExpr.isFunc, PExpr.isConst,
        exprType_constE, h, hplus, htz, BTLessStrategyNumber,
        BTLessEqualStrategyNumber, BTGreaterStrategyNumber,
        BTGreaterEqualStrategyNumber]
  · have hcf : env.get_cast_func
        (env.get_op_rettype (env.get_operator_plus ct (exprType width))) tb_rt ≠
        InvalidOid := by
      rcases hcast with h | h
      · exact absurd h hrt
      · exact h
    rcases hstrat with h | h <;>
      simp [transform_time_bucket_comparison, PExpr.isFunc, PExpr.isConst,
        exprType_constE, h, hplus, htz, hrt, hcf, BTLessStrategyNumber,
        BTLessEqualStrategyNumber, BTGreaterStrategyNumber,
        BTGreaterEqualStrategyNumber]

/-- Witness for C2: time_bucket(10, t) less 100 becomes t less (100 + 10)
on an integer column; the int4 "+" returns int4 so no cast is inserted. -/
theorem c2_bucket_less_rewrite_witness :
    transform_time_bucket_comparison testEnv
        (.opE 97 66 16 [.funcE 600 23 [intConst 10, tVar], intConst 100]) =
      .opE 97 66 16 [tVar, .opE 551 InvalidOid 23 [intConst 100, intConst 10]] := by
  have h := c2_bucket_less_rewrite testEnv 600 23 97 66 16 23 false
    (.intVal 100) (intConst 10) tVar rfl (by decide) (Or.inl rfl) (by decide)
    (Or.inl rfl)
  simpa using h

/-- C4: conservative fallback of the rewriter — when the commutator (for
a bucket call on the right), the "+" operator, or the required cast back
to the column's type cannot be resolved, and likewise for the equal
strategy or any strategy other than greater, greater-or-equal, less and
less-or-equal, the rewriter returns the original comparison structurally
unchanged (the function is total, so no error is ever raised). -/
theorem c4_conservative_fallback :
    (∀ (env : PlannerEnv) (tbid tb_rt opno opfid rt ct : Oid) (cn : Bool)
       (cv : Datum) (width column : PExpr),
     env.get_commutator opno = InvalidOid →
     transform_time_bucket_comparison env
         (.opE opno opfid rt [.constE ct cn cv, .funcE tbid tb_rt [width, column]]) =
       .opE opno opfid rt [.constE ct cn cv, .funcE tbid tb_rt [width, column]]) ∧
    (∀ (env : PlannerEnv) (tbid tb_rt opno opfid rt ct : Oid) (cn : Bool)
       (cv : Datum) (width column : PExpr),
     ¬(env.get_op_opfamily_strategy opno (env.btree_opf_of_type tb_rt) =
         BTGreaterStrategyNumber ∨
       env.get_op_opfamily_strategy opno (env.btree_opf_of_type tb_rt) =
         BTGreaterEqualStrategyNumber) →
     ¬(env.get_op_opfamily_strategy opno (env.btree_opf_of_type tb_rt) =
         BTLessStrategyNumber ∨
       env.get_op_opfamily_strategy opno (env.btree_opf_of_type tb_rt) =
         BTLessEqualStrategyNumber) →
     transform_time_bucket_comparison env
         (.opE opno opfid rt [.funcE tbid tb_rt [width, column], .constE ct cn cv]) =
       .opE opno opfid rt [.funcE tbid tb_rt [width, column], .constE ct cn cv]) ∧
    (∀ (env : PlannerEnv) (tbid tb_rt opno opfid rt ct : Oid) (cn : Bool)
       (cv : Datum) (width column : PExpr),
     (env.get_op_opfamily_strategy opno (env.btree_opf_of_type tb_rt) =
        BTLessStrategyNumber ∨
      env.get_op_opfamily_strategy opno (env.btree_opf_of_type tb_rt) =
        BTLessEqualStrategyNumber) →
     env.get_operator_plus ct (exprType width) = InvalidOid →
     transform_time_bucket_comparison env
         (.opE opno opfid rt [.funcE tbid tb_rt [width, column], .constE ct cn cv]) =
       .opE opno opfid rt [.funcE tbid tb_rt [width, column], .constE ct cn cv]) ∧
    (∀ (env : PlannerEnv) (tbid tb_rt opno opfid rt ct : Oid) (cn : Bool)
       (cv : Datum) (width column : PExpr),
     (env.get_op_opfamily_strategy opno (env.btree_opf_of_type tb_rt) =
        BTLessStrategyNumber ∨
      env.get_op_opfamily_strategy opno (env.btree_opf_of_type tb_rt) =
        BTLessEqualStrategyNumber) →
     env.get_operator_plus ct (exprType width) ≠ InvalidOid →
     tb_rt ≠ env.get_op_rettype (env.get_operator_plus ct (exprType width)) →
     env.get_cast_func
         (env.get_op_rettype (env.get_operator_plus ct (exprType width))) tb_rt =
       InvalidOid →
     transform_time_bucket_comparison env
         (.opE opno opfid rt [.funcE tbid tb_rt [width, column], .constE ct cn cv]) =
       .opE opno opfid rt [.funcE tbid tb_rt [width, column], .constE ct cn cv]) := by
  refine ⟨?_, ?_, ?_, ?_⟩
  · intro env tbid tb_rt opno opfid rt ct cn cv width column hcomm
    simp [transform_time_bucket_comparison, PExpr.isFunc, PExpr.isConst, hcomm,
      InvalidOid]
  · intro env tbid tb_rt opno opfid rt ct cn cv width column hg hl
    simp [transform_time_bucket_comparison, PExpr.isFunc, PExpr.isConst, hg, hl]
  · intro env tbid tb_rt opno opfid rt ct cn cv width column hstrat hplus
    rcases hstrat with h | h <;>
      simp [transform_time_bucket_comparison, PExpr.isFunc, PExpr.isConst,
        exprType_constE, h, hplus, BTLessStrategyNumber,
        BTLessEqualStrategyNumber, BTGreaterStrategyNumber,
        BTGreaterEqualStrategyNumber]
  · intro env tbid tb_rt opno opfid rt ct cn cv width column hstrat hplus hrt hcast
    rcases hstrat with h | h <;>
      simp [transform_time_bucket_comparison, PExpr.isFunc, PExpr.isConst,
        exprType_constE, h, hplus, hrt, hcast, BTLessStrategyNumber,
        BTLessEqualStrategyNumber, BTGreaterStrategyNumber,
        BTGreaterEqualStrategyNumber]

/-- Witness for C4: with an operator that has no commutator, with the
equal strategy, with no "+" operator for the operand types, and with a
missing cast, the input comparison is returned unchanged. -/
theorem c4_conservative_fallback_witness :
    transform_time_bucket_comparison testEnv
        (.opE 96 65 16 [intConst 100, .funcE 600 23 [intConst 10, tVar]]) =
      .opE 96 65 16 [intConst 100, .funcE 600 23 [intConst 10, tVar]] ∧
    transform_time_bucket_comparison testEnv
        (.opE 96 65 16 [.funcE 600 23 [intConst 10, tVar], intConst 100]) =
      .opE 96 65 16 [.funcE 600 23 [intConst 10, tVar], intConst 100] ∧
    transform_time_bucket_comparison testEnv
        (.opE 1110 0 16 [.funcE 600 TIMESTAMPTZOID [intConst 10, .varE 1 1 TIMESTAMPTZOID],
           .constE TIMESTAMPTZOID false (.intVal 7)]) =
      .opE 1110 0 16 [.funcE 600 TIMESTAMPTZOID [intConst 10, .varE 1 1 TIMESTAMPTZOID],
        .constE TIMESTAMPTZOID false (.intVal 7)] ∧
    transform_time_bucket_comparison testEnv
        (.opE 1110 0 16 [.funcE 600 TIMESTAMPTZOID [intConst 10, .varE 1 1 TIMESTAMPTZOID],
           intConst 7]) =
      .opE 1110 0 16 [.funcE 600 TIMESTAMPTZOID [intConst 10, .varE 1 1 TIMESTAMPTZOID],
        intConst 7] := by
  refine ⟨?_, ?_, ?_, ?_⟩
  · exact c4_conservative_fallback.1 testEnv 600 23 96 65 16 23 false
      (.intVal 100) (intConst 10) tVar (by decide)
  · exact c4_conservative_fallback.2.1 testEnv 600 23 96 65 16 23 false
      (.intVal 100) (intConst 10) tVar (by decide) (by decide)
  · exact c4_conservative_fallback.2.2.1 testEnv 600 TIMESTAMPTZOID 1110 0 16
      TIMESTAMPTZOID false (.intVal 7) (intConst 10) (.varE 1 1 TIMESTAMPTZOID)
      (Or.inl (by decide)) (by decide)
  · exact c4_conservative_fallback.2.2.2 testEnv 600 TIMESTAMPTZOID 1110 0 16
      23 false (.intVal 7) (intConst 10) (.varE 1 1 TIMESTAMPTZOID)
      (Or.inl (by decide)) (by decide) (by decide) (by decide)

/-- C5: in the less/less-or-equal rewrite on a timestamptz column with
an interval width whose month component is zero and day component is
nonzero, the day component is merged into the time component at 24 hours
per day on a copy of the constant before the widened upper bound is
built (the merged pure-time interval then qualifies for plan-time
pre-evaluation of the bound). -/
theorem c5_day_merge (env : PlannerEnv)
    (tbid opno opfid rt ct : Oid) (cn isn : Bool) (cv : Datum)
    (column : PExpr) (d t : Int) :
    exprType column = TIMESTAMPTZOID →
    d ≠ 0 →
    (env.get_op_opfamily_strategy opno (env.btree_opf_of_type TIMESTAMPTZOID) =
       BTLessStrategyNumber ∨
     env.get_op_opfamily_strategy opno (env.btree_opf_of_type TIMESTAMPTZOID) =
       BTLessEqualStrategyNumber) →
    env.get_operator_plus ct INTERVALOID ≠ InvalidOid →
    env.get_op_rettype (env.get_operator_plus ct INTERVALOID) = TIMESTAMPTZOID →
    transform_time_bucket_comparison env
        (.opE opno opfid rt
          [.funcE tbid TIMESTAMPTZOID
            [.constE INTERVALOID isn (.intervalVal ⟨0, d, t⟩), column],
           .constE ct cn cv]) =
      .opE opno opfid rt [column,
        env.estimate_expression_value
          (.opE (env.get_operator_plus ct INTERVALOID) InvalidOid TIMESTAMPTZOID
            [.constE ct cn cv,
             .constE INTERVALOID isn (.intervalVal ⟨0, 0, t + d * USECS_PER_DAY⟩)])] := by
  intro _ hd hstrat hplus hrt
  rcases hstrat with h | h <;>
    simp [transform_time_bucket_comparison, PExpr.isFunc, PExpr.isConst,
      exprType_constE, exprType, h, hplus, hrt, hd, widthNeedsDayMerge,
      widthFoldable, intervalConstOf, mergeDayIntoTime, BTLessStrategyNumber,
      BTLessEqualStrategyNumber, BTGreaterStrategyNumber,
      BTGreaterEqualStrategyNumber]

/-- Witness for C5: a width of interval 1 day 2 hours on a timestamptz
column is folded to 26 hours (93600000000 microseconds) before the upper
bound is widened. -/
theorem c5_day_merge_witness :
    transform_time_bucket_comparison testEnv
        (.opE 1110 0 16
          [.funcE 600 TIMESTAMPTZOID
            [.constE INTERVALOID false (.intervalVal ⟨0, 1, 7200000000⟩),
             .varE 1 1 TIMESTAMPTZOID],
           .constE TIMESTAMPTZOID false (.intVal 1000)]) =
      .opE 1110 0 16 [.varE 1 1 TIMESTAMPTZOID,
        .opE 1327 InvalidOid TIMESTAMPTZOID
          [.constE TIMESTAMPTZOID false (.intVal 1000),
           .constE INTERVALOID false (.intervalVal ⟨0, 0, 93600000000⟩)]] := by
  have h := c5_day_merge testEnv 600 1110 0 16 TIMESTAMPTZOID false false
    (.intVal 1000) (.varE 1 1 TIMESTAMPTZOID) 1 7200000000 rfl (by decide)
    (Or.inl (by decide)) (by decide) (by decide)
  simpa using h

/-- C3 counterexample: the decoded id list is not deduplicated — for
chunks_in(record, ARRAY[3,3]) on a hypertable owning chunk 3 (physical
oid 103), the resolved chunk list is [103, 103], not the deduplicated
[103] the claim asserts. -/
theorem c3_no_dedup_counterexample :
    get_chunk_oids testEnv
        { restrictions := [],
          chunk_exclusion_func := some (chunksInCall [some 3, some 3]) }
        (testRoot (.fromExpr [] [])) testRel testHt =
      .ok ([103, 103], some ⟨false⟩) ∧
    ([103, 103] : List Oid) ≠ [103] ∧ ([103, 103] : List Oid).dedup = [103] := by
  exact ⟨rfl, by decide, by decide⟩

/-- C3 (amended): when an explicit chunk selector is found during
qualifier collection, previously accumulated restrictions are discarded
(the final context of a successful walk that recorded a selector holds
no restrictions), the selector node is removed from the qual list and
the scan of that list stops there (later conjuncts are returned
unprocessed), and the resolved chunk list is exactly the validated
decoded id list of the selector's constant array, in array order with
duplicates preserved (not deduplicated), regardless of any other
predicates. -/
theorem c3_explicit_selection_precedence :
    (∀ (env : PlannerEnv) (excl : Oid) (relid sec : Nat) (t t' : JoinTreeNode)
       (ctx' : CollectQualCtx),
     collect_quals_walker env excl relid sec t
         { restrictions := [], chunk_exclusion_func := none } = .ok (t', ctx') →
     ctx'.chunk_exclusion_func.isSome = true →
     ctx'.restrictions = []) ∧
    (∀ (env : PlannerEnv) (excl : Oid) (relid sec : Nat) (qs1 : List PExpr)
       (fid frt : Oid) (arg1 : PExpr) (args1 : List PExpr) (qs2 : List PExpr)
       (ctx : CollectQualCtx),
     (∀ q ∈ qs1, isSelectorConjunct excl relid q = false) →
     isSelectorConjunct excl relid (.funcE fid frt (arg1 :: args1)) = true →
     arg1.isVar = true →
     process_quals env excl relid sec
         (qs1 ++ .funcE fid frt (arg1 :: args1) :: qs2) ctx =
       .ok (qs1 ++ qs2,
         { restrictions := [],
           chunk_exclusion_func := some (.funcE fid frt (arg1 :: args1)) })) ∧
    (∀ (env : PlannerEnv) (root : PlannerInfoM) (rel : RelOptInfoM)
       (ht : Hypertable) (rs : List RestrictInfo) (fid frt ct : Oid) (cn : Bool)
       (arg1 : PExpr) (elems : List (Option Int)),
     elemsValid env ht elems = true →
     get_chunk_oids env
         { restrictions := rs,
           chunk_exclusion_func :=
             some (.funcE fid frt [arg1, .constE ct cn (.arrayVal elems)]) }
         root rel ht =
       .ok (decodedOids env elems, rel.fdw_private)) := by
  refine ⟨?_, ?_, ?_⟩
  · intro env excl relid sec t t' ctx' hok hsome
    exact collect_quals_walker_found_inv env excl relid sec t _ _ _ rfl hok hsome
  · intro env excl relid sec qs1 fid frt arg1 args1 qs2 ctx hno hsel hvar
    exact process_quals_selector_found env excl relid sec qs1 fid frt arg1
      args1 qs2 ctx hno hsel hvar
  · intro env root rel ht rs fid frt ct cn arg1 elems hvalid
    simp only [get_chunk_oids, get_explicit_chunk_oids,
      decode_chunk_ids_all_valid env ht elems hvalid]

/-- Witness for C3 (amended): concrete runs — a walk that records the
selector ends with no restrictions; a qual list with a bucket comparison
before the selector and another conjunct after it is returned with the
selector spliced out and the trailing conjunct untouched; an id array
[3, 4] resolves to the physical oids [103, 104] in array order. -/
theorem c3_explicit_selection_precedence_witness :
    CollectQualCtx.restrictions
        { restrictions := [],
          chunk_exclusion_func := some (chunksInCall [some 3]) } = [] ∧
    process_quals testEnv 700 1 0
        ([.opE 521 147 16 [bucketCall, intConst 109]] ++
          chunksInCall [some 3, some 3] :: [.opE 97 66 16 [tVar, intConst 5]])
        { restrictions := [], chunk_exclusion_func := none } =
      .ok ([.opE 521 147 16 [bucketCall, intConst 109]] ++
            [.opE 97 66 16 [tVar, intConst 5]],
        { restrictions := [],
          chunk_exclusion_func := some (chunksInCall [some 3, some 3]) }) ∧
    get_chunk_oids testEnv
        { restrictions := [],
          chunk_exclusion_func := some (chunksInCall [some 3, some 4]) }
        (testRoot (.fromExpr [] [])) testRel testHt =
      .ok ([103, 104], some ⟨false⟩) := by
  refine ⟨?_, ?_, ?_⟩
  · exact c3_explicit_selection_precedence.1 testEnv 700 1 0
      (.fromExpr [.rangeTblRef 1] [chunksInCall [some 3]])
      (.fromExpr [.rangeTblRef 1] [])
      { restrictions := [], chunk_exclusion_func := some (chunksInCall [some 3]) }
      rfl rfl
  · exact c3_explicit_selection_precedence.2.1 testEnv 700 1 0
      [.opE 521 147 16 [bucketCall, intConst 109]] 700 16 (.varE 1 0 RECORDOID)
      [.constE INT4ARRAYOID false (.arrayVal [some 3, some 3])]
      [.opE 97 66 16 [tVar, intConst 5]]
      { restrictions := [], chunk_exclusion_func := none }
      (by intro q hq; simp only [List.mem_singleton] at hq; subst hq; decide)
      (by decide) (by decide)
  · exact c3_explicit_selection_precedence.2.2 testEnv
      (testRoot (.fromExpr [] [])) testRel testHt [] 700 16 INT4ARRAYOID false
      (.varE 1 0 RECORDOID) [some 3, some 4] (by decide)

/-- C6: explicit chunk selection fails with a fatal validation error
when the selector's first argument is not a direct column/record
reference, when the second argument is not a compile-time constant, when
an array element is NULL, when an element names an unknown chunk id, and
when an element names a chunk of a different hypertable — the last two
errors name the offending chunk id. -/
theorem c6_explicit_selection_validation :
    (∀ (env : PlannerEnv) (excl : Oid) (relid sec : Nat) (rest : List PExpr)
       (fid frt : Oid) (arg1 : PExpr) (args1 : List PExpr) (ctx : CollectQualCtx),
     (qualRelids (.funcE fid frt (arg1 :: args1))).length = 1 →
     relid ∈ qualRelids (.funcE fid frt (arg1 :: args1)) →
     is_chunk_exclusion_func excl (.funcE fid frt (arg1 :: args1)) = true →
     arg1.isVar = false →
     process_quals env excl relid sec (.funcE fid frt (arg1 :: args1) :: rest) ctx =
       .error .firstArgNotRecord) ∧
    (∀ (env : PlannerEnv) (ht : Hypertable) (rs : List RestrictInfo)
       (fid frt : Oid) (arg1 e : PExpr),
     e.isConst = false →
     get_explicit_chunk_oids env
         { restrictions := rs, chunk_exclusion_func := some (.funcE fid frt [arg1, e]) }
         ht =
       .error .secondArgNotConstArray) ∧
    (∀ (env : PlannerEnv) (ht : Hypertable) (rs : List RestrictInfo)
       (fid frt ct : Oid) (cn : Bool) (arg1 : PExpr) (pre rest : List (Option Int)),
     elemsValid env ht pre = true →
     get_explicit_chunk_oids env
         { restrictions := rs,
           chunk_exclusion_func :=
             some (.funcE fid frt [arg1, .constE ct cn (.arrayVal (pre ++ none :: rest))]) }
         ht =
       .error .nullChunkId) ∧
    (∀ (env : PlannerEnv) (ht : Hypertable) (rs : List RestrictInfo)
       (fid frt ct : Oid) (cn : Bool) (arg1 : PExpr) (pre rest : List (Option Int))
       (cid : Int),
     elemsValid env ht pre = true →
     env.ts_chunk_get_by_id cid = none →
     get_explicit_chunk_oids env
         { restrictions := rs,
           chunk_exclusion_func :=
             some (.funcE fid frt
               [arg1, .constE ct cn (.arrayVal (pre ++ some cid :: rest))]) }
         ht =
       .error (.chunkNotFound cid)) ∧
    (∀ (env : PlannerEnv) (ht : Hypertable) (rs : List RestrictInfo)
       (fid frt ct : Oid) (cn : Bool) (arg1 : PExpr) (pre rest : List (Option Int))
       (cid : Int) (c : ChunkT),
     elemsValid env ht pre = true →
     env.ts_chunk_get_by_id cid = some c →
     c.hypertable_id ≠ ht.id →
     get_explicit_chunk_oids env
         { restrictions := rs,
           chunk_exclusion_func :=
             some (.funcE fid frt
               [arg1, .constE ct cn (.arrayVal (pre ++ some cid :: rest))]) }
         ht =
       .error (.foreignChunk cid)) := by
  refine ⟨?_, ?_, ?_, ?_, ?_⟩
  · intro env excl relid sec rest fid frt arg1 args1 ctx hlen hmem hexcl hvar
    simp only [process_quals]
    rw [if_neg (not_not_intro ⟨hlen, hmem⟩), if_pos hexcl]
    simp [hvar]
  · intro env ht rs fid frt arg1 e he
    cases e with
    | constE a b c => simp [PExpr.isConst] at he
    | varE a b c => rfl
    | funcE a b c => rfl
    | opE a b c d => rfl
  · intro env ht rs fid frt ct cn arg1 pre rest hvalid
    simp only [get_explicit_chunk_oids,
      decode_chunk_ids_append_valid env ht pre _ hvalid]
    simp [decode_chunk_ids, Except.map]
  · intro env ht rs fid frt ct cn arg1 pre rest cid hvalid hnone
    simp only [get_explicit_chunk_oids,
      decode_chunk_ids_append_valid env ht pre _ hvalid]
    simp [decode_chunk_ids, hnone, Except.map]
  · intro env ht rs fid frt ct cn arg1 pre rest cid c hvalid hsome hne
    simp only [get_explicit_chunk_oids,
      decode_chunk_ids_append_valid env ht pre _ hvalid]
    simp [decode_chunk_ids, hsome, hne, Except.map]

/-- Witness for C6: concrete failures — a non-Var first argument, a
non-constant second argument, a NULL array element, the unknown chunk id
99, and chunks_in(record, ARRAY[3,7]) where chunk 7 belongs to a foreign
hypertable, failing with an error naming chunk 7. -/
theorem c6_explicit_selection_validation_witness :
    process_quals testEnv 700 1 0
        [.funcE 700 16 [.opE 0 0 16 [tVar],
          .constE INT4ARRAYOID false (.arrayVal [some 3])]]
        { restrictions := [], chunk_exclusion_func := none } =
      .error .firstArgNotRecord ∧
    get_explicit_chunk_oids testEnv
        { restrictions := [],
          chunk_exclusion_func := some (.funcE 700 16 [.varE 1 0 RECORDOID, .varE 1 2 23]) }
        testHt =
      .error .secondArgNotConstArray ∧
    get_explicit_chunk_oids testEnv
        { restrictions := [], chunk_exclusion_func := some (chunksInCall [some 3, none]) }
        testHt =
      .error .nullChunkId ∧
    get_explicit_chunk_oids testEnv
        { restrictions := [], chunk_exclusion_func := some (chunksInCall [some 3, some 99]) }
        testHt =
      .error (.chunkNotFound 99) ∧
    get_explicit_chunk_oids testEnv
        { restrictions := [], chunk_exclusion_func := some (chunksInCall [some 3, some 7]) }
        testHt =
      .error (.foreignChunk 7) := by
  refine ⟨?_, ?_, ?_, ?_, ?_⟩
  · exact c6_explicit_selection_validation.1 testEnv 700 1 0 [] 700 16
      (.opE 0 0 16 [tVar]) [.constE INT4ARRAYOID false (.arrayVal [some 3])]
      { restrictions := [], chunk_exclusion_func := none }
      (by decide) (by decide) (by decide) (by decide)
  · exact c6_explicit_selection_validation.2.1 testEnv testHt [] 700 16
      (.varE 1 0 RECORDOID) (.varE 1 2 23) rfl
  · exact c6_explicit_selection_validation.2.2.1 testEnv testHt [] 700 16
      INT4ARRAYOID false (.varE 1 0 RECORDOID) [some 3] [] (by decide)
  · exact c6_explicit_selection_validation.2.2.2.1 testEnv testHt [] 700 16
      INT4ARRAYOID false (.varE 1 0 RECORDOID) [some 3] [] 99 (by decide) (by decide)
  · exact c6_explicit_selection_validation.2.2.2.2 testEnv testHt [] 700 16
      INT4ARRAYOID false (.varE 1 0 RECORDOID) [some 3] [] 7 ⟨2, 107⟩
      (by decide) (by decide) (by decide)

/-- Query/planner state with ORDER BY and LIMIT on the empty jointree,
meeting every ordered-append condition of the concrete environment. -/
def testRootOrdered : PlannerInfoM :=
  { parse := { jointree := .fromExpr [] [], resultRelation := 0, rowMarks := [],
               sortClause := [1] },
    rowMarks := [], limit_tuples := 100, qual_security_level := 0 }

/-- C7 counterexample: with zero restrictions and no explicit selector
but an ordered-append-eligible query, chunk resolution does not take the
inheritance fast path — the list comes from the range-exclusion
capability pre-ordered ([103, 102, 101]), not from the child registry
([101, 102, 103]). -/
theorem c7_fast_path_counterexample :
    get_chunk_oids testEnv { restrictions := [], chunk_exclusion_func := none }
        testRootOrdered testRel testHt =
      .ok ([103, 102, 101], some ⟨true⟩) ∧
    testEnv.find_inheritance_children testHt.main_table_relid = [101, 102, 103] ∧
    ([103, 102, 101] : List Oid) ≠ [101, 102, 103] :=
  ⟨rfl, rfl, by decide⟩

/-- C7 (amended): with zero Restrictions, no Explicit Chunk Selector and
ordered append not requested, chunk resolution takes the fast path that
lists the hypertable's children through the inheritance/child registry
(for every environment the result is exactly the child-registry listing,
i.e. the complete set of known chunks, and the range-exclusion
capability is not consulted); when ordered append is requested the same
complete set is instead obtained pre-ordered from the range-exclusion
capability. -/
theorem c7_no_restriction_fast_path (env : PlannerEnv) (ctx : CollectQualCtx)
    (root : PlannerInfoM) (rel : RelOptInfoM) (ht : Hypertable) :
    ctx.restrictions = [] →
    ctx.chunk_exclusion_func = none →
    should_order_append env root rel ht = none →
    get_chunk_oids env ctx root rel ht =
      .ok (env.find_inheritance_children ht.main_table_relid, rel.fdw_private) := by
  intro hrs hsel hord
  simp [get_chunk_oids, hsel, hord, hrs, find_children_oids,
    ts_hypertable_restrict_info_add, ts_hypertable_restrict_info_create,
    ts_hypertable_restrict_info_has_restrictions]

/-- Witness for C7 (amended): a query with no ORDER BY/LIMIT resolves the
unrestricted hypertable to its full child list [101, 102, 103] via the
inheritance registry. -/
theorem c7_no_restriction_fast_path_witness :
    get_chunk_oids testEnv { restrictions := [], chunk_exclusion_func := none }
        (testRoot (.fromExpr [] [])) testRel testHt =
      .ok ([101, 102, 103], some ⟨false⟩) :=
  c7_no_restriction_fast_path testEnv
    { restrictions := [], chunk_exclusion_func := none }
    (testRoot (.fromExpr [] [])) testRel testHt rfl rfl rfl

/-- C8: if the one-time catalog lookup of the chunks_in marker function
fails (InvalidOid), the feature is unavailable but planning does not
abort — for any query whose function calls carry valid funcids, the
expansion entry point succeeds, records no explicit selector and leaves
the jointree untouched. -/
theorem c8_marker_lookup_failure (env : PlannerEnv) (ht : Hypertable)
    (root : PlannerInfoM) (rel : RelOptInfoM) :
    env.get_function_oid_chunks_in = InvalidOid →
    jtTopFuncIdsValid root.parse.jointree = true →
    (∀ rc, get_plan_rowmark root.rowMarks rel.relid = some rc →
       RowMarkRequiresRowShareLock rc.markType = false) →
    Except.map (fun r => r.ctx.chunk_exclusion_func)
        (ts_plan_expand_hypertable_chunks env InvalidOid ht root rel) = .ok none ∧
    Except.map (fun r => r.jointree)
        (ts_plan_expand_hypertable_chunks env InvalidOid ht root rel) =
      .ok root.parse.jointree := by
  intro henv hvalid hrm
  have hinit : init_chunk_exclusion_func env InvalidOid = InvalidOid := by
    simp [init_chunk_exclusion_func, henv]
  obtain ⟨rs, hw⟩ := collect_quals_walker_no_selector env rel.relid
    root.qual_security_level root.parse.jointree
    { restrictions := [], chunk_exclusion_func := none } rfl hvalid
  have hbody : ∃ oids fdw,
      ts_plan_expand_hypertable_chunks_body env InvalidOid ht root rel =
        .ok ⟨root.parse.jointree,
             { restrictions := rs, chunk_exclusion_func := none }, oids, fdw⟩ := by
    simp only [ts_plan_expand_hypertable_chunks_body, hinit, hw, get_chunk_oids]
    cases hso : should_order_append env root rel ht with
    | some reverse => exact ⟨_, _, rfl⟩
    | none => exact ⟨_, _, rfl⟩
  obtain ⟨oids, fdw, hb⟩ := hbody
  have hentry : ts_plan_expand_hypertable_chunks env InvalidOid ht root rel =
      .ok ⟨root.parse.jointree,
           { restrictions := rs, chunk_exclusion_func := none }, oids, fdw⟩ := by
    simp only [ts_plan_expand_hypertable_chunks]
    cases hg : get_plan_rowmark root.rowMarks rel.relid with
    | none => simpa using hb
    | some rc => simp [hrm rc hg, hb]
  constructor <;> simp [hentry, Except.map]

/-- Witness for C8: with the marker lookup failing, a query whose filter
is a (well-formed) chunks_in call is planned without error, the call is
not recognized as a selector and the jointree is left unchanged. -/
theorem c8_marker_lookup_failure_witness :
    Except.map (fun r => r.ctx.chunk_exclusion_func)
        (ts_plan_expand_hypertable_chunks
          { testEnv with get_function_oid_chunks_in := InvalidOid } InvalidOid
          testHt (testRoot (.fromExpr [.rangeTblRef 1] [chunksInCall [some 3]]))
          testRel) = .ok none ∧
    Except.map (fun r => r.jointree)
        (ts_plan_expand_hypertable_chunks
          { testEnv with get_function_oid_chunks_in := InvalidOid } InvalidOid
          testHt (testRoot (.fromExpr [.rangeTblRef 1] [chunksInCall [some 3]]))
          testRel) =
      .ok (.fromExpr [.rangeTblRef 1] [chunksInCall [some 3]]) :=
  c8_marker_lookup_failure
    { testEnv with get_function_oid_chunks_in := InvalidOid } testHt
    (testRoot (.fromExpr [.rangeTblRef 1] [chunksInCall [some 3]])) testRel
    rfl (by decide) (by intro rc h; simp [get_plan_rowmark, testRoot] at h)

/-- C9 counterexample: with every one of the claim's six conditions
satisfied, (i) a relation without private planning state (fdw_private
NULL) gets the pre-ordered chunk list but is never flagged
appends_ordered, and (ii) when an explicit chunk selector is present the
ordered list is not requested at all — so the claim's if-and-only-if
fails. -/
theorem c9_ordered_append_counterexample :
    should_order_append testEnv testRootOrdered ⟨1, none⟩ testHt = some true ∧
    get_chunk_oids testEnv { restrictions := [], chunk_exclusion_func := none }
        testRootOrdered ⟨1, none⟩ testHt =
      .ok ([103, 102, 101], none) ∧
    (none : Option TimescaleDBPrivate) ≠ some ⟨true⟩ ∧
    get_chunk_oids testEnv
        { restrictions := [],
          chunk_exclusion_func := some (chunksInCall [some 3]) }
        testRootOrdered testRel testHt =
      .ok ([103], some ⟨false⟩) ∧
    ([103] : List Oid) ≠ [103, 102, 101] :=
  ⟨rfl, rfl, by decide, rfl, by decide⟩

/-- C9 (amended): in the restriction-based path (no explicit selector),
chunk resolution requests a pre-ordered (ascending or descending) chunk
list if and only if the optimizations kill-switch is off, ordered append
is enabled, the hypertable has exactly one dimension, the query has an
ORDER BY and a LIMIT (limit_tuples not -1), and the downstream
ordered-append check accepts the query; it additionally flags the
relation appends_ordered exactly when the relation's private planning
state exists (fdw_private non-null); otherwise chunks are resolved in
arbitrary order. -/
theorem c9_ordered_append_eligibility :
    (∀ (env : PlannerEnv) (root : PlannerInfoM) (rel : RelOptInfoM)
       (ht : Hypertable) (rev : Bool),
     should_order_append env root rel ht = some rev ↔
       (env.ts_guc_disable_optimizations = false ∧
        env.ts_guc_enable_ordered_append = true ∧
        ht.num_dimensions = 1 ∧
        root.parse.sortClause ≠ [] ∧
        root.limit_tuples ≠ -1 ∧
        env.ordered_append_should_optimize root.limit_tuples
          root.parse.sortClause rel ht = some rev)) ∧
    (∀ (env : PlannerEnv) (ctx : CollectQualCtx) (root : PlannerInfoM)
       (rel : RelOptInfoM) (ht : Hypertable) (rev : Bool) (p : TimescaleDBPrivate),
     ctx.chunk_exclusion_func = none →
     should_order_append env root rel ht = some rev →
     rel.fdw_private = some p →
     get_chunk_oids env ctx root rel ht =
       .ok (env.restrict_info_chunk_oids_ordered
              (ts_hypertable_restrict_info_add env ts_hypertable_restrict_info_create
                ctx.restrictions) ht.main_table_relid rev,
            some { p with appends_ordered := true })) ∧
    (∀ (env : PlannerEnv) (ctx : CollectQualCtx) (root : PlannerInfoM)
       (rel : RelOptInfoM) (ht : Hypertable) (rev : Bool),
     ctx.chunk_exclusion_func = none →
     should_order_append env root rel ht = some rev →
     rel.fdw_private = none →
     get_chunk_oids env ctx root rel ht =
       .ok (env.restrict_info_chunk_oids_ordered
              (ts_hypertable_restrict_info_add env ts_hypertable_restrict_info_create
                ctx.restrictions) ht.main_table_relid rev, none)) ∧
    (∀ (env : PlannerEnv) (ctx : CollectQualCtx) (root : PlannerInfoM)
       (rel : RelOptInfoM) (ht : Hypertable),
     ctx.chunk_exclusion_func = none →
     should_order_append env root rel ht = none →
     get_chunk_oids env ctx root rel ht =
       .ok (find_children_oids env
              (ts_hypertable_restrict_info_add env ts_hypertable_restrict_info_create
                ctx.restrictions) ht, rel.fdw_private)) := by
  refine ⟨?_, ?_, ?_, ?_⟩
  · intro env root rel ht rev
    cases hdis : env.ts_guc_disable_optimizations <;>
    cases hen : env.ts_guc_enable_ordered_append <;>
    by_cases h1 : ht.num_dimensions = 1 <;>
    by_cases h2 : root.parse.sortClause = [] <;>
    by_cases h3 : root.limit_tuples = -1 <;>
      simp [should_order_append, hdis, hen, h1, h2, h3]
  · intro env ctx root rel ht rev p hsel hord hfdw
    simp [get_chunk_oids, hsel, hord, hfdw]
  · intro env ctx root rel ht rev hsel hord hfdw
    simp [get_chunk_oids, hsel, hord, hfdw]
  · intro env ctx root rel ht hsel hord
    simp [get_chunk_oids, hsel, hord]

/-- Witness for C9 (amended): for a 1-dimension hypertable with flags
on, ORDER BY, LIMIT and an accepting downstream check, resolution
requests the pre-ordered list [103, 102, 101] and flags appends_ordered
on the relation's existing private state. -/
theorem c9_ordered_append_eligibility_witness :
    should_order_append testEnv testRootOrdered testRel testHt = some true ∧
    get_chunk_oids testEnv { restrictions := [], chunk_exclusion_func := none }
        testRootOrdered testRel testHt =
      .ok ([103, 102, 101], some ⟨true⟩) := by
  constructor
  · exact (c9_ordered_append_eligibility.1 testEnv testRootOrdered testRel
      testHt true).mpr ⟨rfl, rfl, rfl, by decide, by decide, rfl⟩
  · exact c9_ordered_append_eligibility.2.1 testEnv
      { restrictions := [], chunk_exclusion_func := none } testRootOrdered
      testRel testHt true ⟨false⟩ rfl rfl rfl

/-- C10: expansion is valid exactly when the hypertable handle is
present, the range-table entry has inheritance enabled, the query has no
row marks and no result relation; and the expansion entry point fails
with a fatal error when a row mark requiring a row share lock exists for
the target relation. -/
theorem c10_valid_hypertable :
    (∀ (ht : Option Hypertable) (parse : Query) (rti : Nat) (rte : RangeTblEntry),
     ts_plan_expand_hypertable_valid_hypertable ht parse rti rte = true ↔
       (ht ≠ none ∧ rte.inh = true ∧ parse.rowMarks = [] ∧
        parse.resultRelation = 0)) ∧
    (∀ (env : PlannerEnv) (cached : Oid) (ht : Hypertable) (root : PlannerInfoM)
       (rel : RelOptInfoM) (rc : PlanRowMark),
     get_plan_rowmark root.rowMarks rel.relid = some rc →
     RowMarkRequiresRowShareLock rc.markType = true →
     ts_plan_expand_hypertable_chunks env cached ht root rel =
       .error .unexpectedPermissions) := by
  constructor
  · intro ht parse rti rte
    constructor
    · intro h
      by_cases hc : ht = none ∨ rte.inh = false ∨ parse.rowMarks ≠ [] ∨
          0 ≠ parse.resultRelation
      · rw [ts_plan_expand_hypertable_valid_hypertable, if_pos hc] at h
        exact absurd h (by simp)
      · push_neg at hc
        obtain ⟨h1, h2, h3, h4⟩ := hc
        exact ⟨h1, by simpa using h2, h3, h4.symm⟩
    · intro ⟨h1, h2, h3, h4⟩
      rw [ts_plan_expand_hypertable_valid_hypertable,
        if_neg (by push_neg; exact ⟨h1, by simp [h2], h3, h4.symm⟩)]
  · intro env cached ht root rel rc hg hreq
    simp [ts_plan_expand_hypertable_chunks, hg, hreq]

/-- Witness for C10: a present hypertable with inheritance, no row marks
and no result relation validates; and a key-share row mark (type 2) on
the target relation makes the entry point fail with the permissions
error. -/
theorem c10_valid_hypertable_witness :
    ts_plan_expand_hypertable_valid_hypertable (some testHt)
        { jointree := .fromExpr [] [], resultRelation := 0, rowMarks := [],
          sortClause := [] } 1 ⟨true⟩ = true ∧
    ts_plan_expand_hypertable_chunks testEnv InvalidOid testHt
        { parse := { jointree := .fromExpr [] [], resultRelation := 0,
                     rowMarks := [], sortClause := [] },
          rowMarks := [⟨1, 2⟩], limit_tuples := -1, qual_security_level := 0 }
        testRel =
      .error .unexpectedPermissions := by
  constructor
  · exact (c10_valid_hypertable.1 (some testHt)
      { jointree := .fromExpr [] [], resultRelation := 0, rowMarks := [],
        sortClause := [] } 1 ⟨true⟩).mpr ⟨by simp, rfl, rfl, rfl⟩
  · exact c10_valid_hypertable.2 testEnv InvalidOid testHt
      { parse := { jointree := .fromExpr [] [], resultRelation := 0,
                   rowMarks := [], sortClause := [] },
        rowMarks := [⟨1, 2⟩], limit_tuples := -1, qual_security_level := 0 }
      testRel ⟨1, 2⟩ rfl rfl

end TSDB
